import Mathlib

/-!
Shallow embedding of the `daylight` home-energy simulation core
(`src/core/models.py`, `src/core/services/device_service.py`,
`src/core/services/telemetry_service.py`, `src/core/services/energy_service.py`).

Conventions of the embedding:
* Python floats are embedded as exact rationals `ℚ` (the literals `0.1`,
  `0.5`, `0.8` become `1/10`, `1/2`, `4/5`); the solar model, which calls
  `math.exp`, lives in `ℝ`.
* The ambient random draws (`random.uniform`) are passed as explicit
  parameters, as the spec's design notes request for testability.
* Device `properties` / `current_state` JSON dicts are embedded two ways:
  typed per-device-type structures for the behavioural claims (the schemas
  are fixed per type), and ordered association lists for the claims about
  dict key sets (`register_device` validation and state patching).
* Timestamps are minutes since 0001-01-01 00:00 of the proleptic Gregorian
  calendar (day 0 is a Monday); `TelemetryService` only ever reads
  `timestamp.hour` and `timestamp.minute`, so minute granularity is exact.
-/

namespace Daylight

/-- `DeviceType` from `core/models.py`. -/
inductive DeviceType
  | solar_panel
  | battery
  | electric_vehicle
  | appliance
deriving DecidableEq, Repr

/-- `DeviceMode` from `core/models.py` (operating modes of storage devices). -/
inductive DeviceMode
  | charging
  | discharging
  | idle
deriving DecidableEq, Repr

/-- Static configuration of a storage device (Battery or EV).  For a Battery
the capacity key is `capacity_wh`, for an EV it is `battery_capacity_wh`;
`Device.capacity_wh` in `models.py` reads whichever applies, so one field
suffices here. -/
structure StorageProps where
  capacity_wh : ℚ
  max_charge_rate_watts : ℚ
  max_discharge_rate_watts : ℚ
deriving DecidableEq, Repr

/-- `current_state` of a storage device:
`{"current_charge_wh", "mode", "current_rate_watts"}`. -/
structure StorageState where
  current_charge_wh : ℚ
  mode : DeviceMode
  current_rate_watts : ℚ
deriving DecidableEq, Repr

/-- `TelemetryService.update_storage_charge`: integrate the charge over
`duration_seconds` according to the mode; charging is capped at `capacity`,
discharging is floored at `capacity * 0.1`. -/
def update_storage_charge (capacity : ℚ) (st : StorageState)
    (duration_seconds : ℚ) : ℚ :=
  let energy_delta := st.current_rate_watts * duration_seconds / 3600
  match st.mode with
  | DeviceMode.charging => min (st.current_charge_wh + energy_delta) capacity
  | DeviceMode.discharging =>
      max (st.current_charge_wh - energy_delta) (capacity * (1/10))
  | DeviceMode.idle => st.current_charge_wh

/-- `TelemetryService.should_auto_idle`: a charging device at or above
capacity, or a discharging device at or below the 10% reserve floor,
switches itself to idle. -/
def should_auto_idle (capacity : ℚ) (mode : DeviceMode) (new_charge : ℚ) : Bool :=
  (mode = DeviceMode.charging ∧ capacity ≤ new_charge) ∨
  (mode = DeviceMode.discharging ∧ new_charge ≤ capacity * (1/10))

/-- The storage branch of `TelemetryService.simulate_device` (ticks use the
default duration of 60 seconds): the new state keeps every existing key,
updates the charge, and forces `mode = Idle`, `rate = 0` when
`should_auto_idle` fires. -/
def simulate_storage (capacity : ℚ) (st : StorageState) : StorageState :=
  let new_charge := update_storage_charge capacity st 60
  if should_auto_idle capacity st.mode new_charge then
    { current_charge_wh := new_charge
      mode := DeviceMode.idle
      current_rate_watts := 0 }
  else
    { st with current_charge_wh := new_charge }

/-- `DeviceService.set_storage_mode` restricted to storage devices and valid
modes (the Python code raises `DeviceValidationError` otherwise; here the
types rule those calls out).  A supplied rate is capped at the mode's max
rate when that max is positive, else forced to 0; an absent rate defaults to
the max rate; idle always forces the rate to 0. -/
def set_storage_mode (props : StorageProps) (st : StorageState)
    (mode : DeviceMode) (rate_watts : Option ℚ) : StorageState :=
  let max_rate :=
    match mode with
    | DeviceMode.charging => props.max_charge_rate_watts
    | DeviceMode.discharging => props.max_discharge_rate_watts
    | DeviceMode.idle => 0
  let actual_rate :=
    match rate_watts with
    | some r => if max_rate > 0 then min r max_rate else 0
    | none => max_rate
  { st with
      mode := mode
      current_rate_watts := if mode = DeviceMode.idle then 0 else actual_rate }

/-- `DeviceService.get_initial_state` for a Battery: 50% charge, idle. -/
def initial_battery_state (capacity : ℚ) : StorageState :=
  { current_charge_wh := capacity * (1/2)
    mode := DeviceMode.idle
    current_rate_watts := 0 }

/-- `DeviceService.get_initial_state` for an EV: 80% charge, idle. -/
def initial_ev_state (capacity : ℚ) : StorageState :=
  { current_charge_wh := capacity * (4/5)
    mode := DeviceMode.idle
    current_rate_watts := 0 }

/-- One externally driven operation on a storage device: an explicit
mode-change request or one simulation tick. -/
inductive StorageOp
  | setMode (mode : DeviceMode) (rate : Option ℚ)
  | tick
deriving DecidableEq, Repr

/-- Apply one operation to a storage device's state. -/
def storage_step (props : StorageProps) (st : StorageState) : StorageOp → StorageState
  | StorageOp.setMode m r => set_storage_mode props st m r
  | StorageOp.tick => simulate_storage props.capacity_wh st

/-- Run a sequence of mode changes and ticks from a starting state. -/
def run_storage (props : StorageProps) (st : StorageState)
    (ops : List StorageOp) : StorageState :=
  ops.foldl (storage_step props) st

/-- An operation supplies no negative explicit rate. -/
def op_rate_nonneg : StorageOp → Prop
  | StorageOp.setMode _ (some r) => 0 ≤ r
  | StorageOp.setMode _ none => True
  | StorageOp.tick => True

/-- Typed `current_state` of any device, tagged by type; storage carries its
capacity so that derived projections (`charge_percentage`) are definable. -/
inductive DeviceState
  | solar (current_output_watts : ℚ)
  | appliance (is_on : Bool) (current_power_draw_watts : ℚ)
  | storage (capacity_wh : ℚ) (st : StorageState)
deriving DecidableEq, Repr

/-- `Device.current_power_watts` from `core/models.py`: positive means
producing, negative consuming. -/
def current_power_watts : DeviceState → ℚ
  | DeviceState.solar out => out
  | DeviceState.appliance is_on draw => if is_on then -draw else 0
  | DeviceState.storage _ st =>
      match st.mode with
      | DeviceMode.discharging => st.current_rate_watts
      | DeviceMode.charging => -st.current_rate_watts
      | DeviceMode.idle => 0

/-- The invariant maintained by registered storage devices whose stored rate
is non-negative: charge stays within the reserve floor and the capacity. -/
def storage_inv (capacity : ℚ) (st : StorageState) : Prop :=
  capacity * (1/10) ≤ st.current_charge_wh ∧
  st.current_charge_wh ≤ capacity ∧
  0 ≤ st.current_rate_watts

lemma set_storage_mode_inv (props : StorageProps) (st : StorageState)
    (mode : DeviceMode) (r : Option ℚ)
    (hc : 0 ≤ props.max_charge_rate_watts)
    (hd : 0 ≤ props.max_discharge_rate_watts)
    (hr : ∀ q : ℚ, r = some q → 0 ≤ q)
    (h : storage_inv props.capacity_wh st) :
    storage_inv props.capacity_wh (set_storage_mode props st mode r) := by
  obtain ⟨h1, h2, _⟩ := h
  refine ⟨h1, h2, ?_⟩
  simp only [set_storage_mode]
  split
  · exact le_refl 0
  · cases mode with
    | charging =>
        cases r with
        | none => simpa using hc
        | some q =>
            have hq : 0 ≤ q := hr q rfl
            simp only []
            split
            · exact le_min hq hc
            · exact le_refl 0
    | discharging =>
        cases r with
        | none => simpa using hd
        | some q =>
            have hq : 0 ≤ q := hr q rfl
            simp only []
            split
            · exact le_min hq hd
            · exact le_refl 0
    | idle => simp_all

lemma update_storage_charge_bounds (capacity : ℚ) (st : StorageState)
    (hcap : 0 ≤ capacity) (h : storage_inv capacity st) :
    capacity * (1/10) ≤ update_storage_charge capacity st 60 ∧
    update_storage_charge capacity st 60 ≤ capacity := by
  obtain ⟨h1, h2, h3⟩ := h
  have hdelta : 0 ≤ st.current_rate_watts * 60 / 3600 := by positivity
  cases hm : st.mode with
  | charging =>
      simp only [update_storage_charge, hm]
      constructor
      · exact le_min (by linarith) (by linarith)
      · exact min_le_right _ _
  | discharging =>
      simp only [update_storage_charge, hm]
      constructor
      · exact le_max_right _ _
      · exact max_le (by linarith) (by linarith)
  | idle =>
      simp only [update_storage_charge, hm]
      exact ⟨h1, h2⟩

lemma simulate_storage_inv (capacity : ℚ) (st : StorageState)
    (hcap : 0 ≤ capacity) (h : storage_inv capacity st) :
    storage_inv capacity (simulate_storage capacity st) := by
  obtain ⟨hb1, hb2⟩ := update_storage_charge_bounds capacity st hcap h
  simp only [simulate_storage]
  split
  · exact ⟨hb1, hb2, le_refl 0⟩
  · exact ⟨hb1, hb2, h.2.2⟩

lemma storage_step_inv (props : StorageProps) (st : StorageState) (op : StorageOp)
    (hcap : 0 ≤ props.capacity_wh)
    (hc : 0 ≤ props.max_charge_rate_watts)
    (hd : 0 ≤ props.max_discharge_rate_watts)
    (hop : op_rate_nonneg op)
    (h : storage_inv props.capacity_wh st) :
    storage_inv props.capacity_wh (storage_step props st op) := by
  cases op with
  | setMode m r =>
      refine set_storage_mode_inv props st m r hc hd ?_ h
      intro q hq
      cases r with
      | none => simp at hq
      | some q0 =>
          obtain rfl : q0 = q := by simpa using hq
          exact hop
  | tick => exact simulate_storage_inv props.capacity_wh st hcap h

lemma run_storage_inv (props : StorageProps) (ops : List StorageOp)
    (st : StorageState)
    (hcap : 0 ≤ props.capacity_wh)
    (hc : 0 ≤ props.max_charge_rate_watts)
    (hd : 0 ≤ props.max_discharge_rate_watts)
    (hops : ∀ op ∈ ops, op_rate_nonneg op)
    (h : storage_inv props.capacity_wh st) :
    storage_inv props.capacity_wh (run_storage props st ops) := by
  induction ops generalizing st with
  | nil => exact h
  | cons op rest ih =>
      have hstep := storage_step_inv props st op hcap hc hd
        (hops op (List.mem_cons_self op rest)) h
      exact ih (storage_step props st op)
        (fun o ho => hops o (List.mem_cons_of_mem op ho)) hstep

/-- Claim C1, counterexample: from the registered initial state of a Battery
with capacity 1000 Wh and max rates 2000 W, the sequence
`SetStorageMode(Charging, rate = -100000)` then one tick drives the charge
to `-3500/3` Wh, strictly below the claimed floor `capacity * 0.1 = 100` —
the mode-change rate clamp stores the negative supplied rate, so the
claimed bounds do not hold for arbitrary `SetStorageMode` sequences. -/
theorem storage_charge_bounds_counterexample :
    (run_storage ⟨1000, 2000, 2000⟩ (initial_battery_state 1000)
        [StorageOp.setMode DeviceMode.charging (some (-100000)),
         StorageOp.tick]).current_charge_wh < 1000 * (1/10) := by
  simp only [run_storage, List.foldl, storage_step, set_storage_mode,
    simulate_storage, update_storage_charge, should_auto_idle,
    initial_battery_state]
  simp only [reduceCtorEq, if_false, reduceIte]
  norm_num [min_def, max_def]

/-- Claim C1 (amended): for a Battery or EV starting from its registered
initial state, and any sequence of `SetStorageMode` calls and ticks in which
every explicitly supplied rate is non-negative (negative supplied rates are
stored as-is by the clamp and break the bounds), the charge never exceeds
`capacity` and never drops below `capacity * 0.1`: a Charging tick sets
`new_charge = min(current_charge + energy_delta, capacity)` and a
Discharging tick sets
`new_charge = max(current_charge - energy_delta, capacity * 0.1)`, with
`energy_delta_wh = rate_watts * duration_seconds / 3600`. -/
theorem storage_charge_always_bounded (props : StorageProps)
    (init : StorageState) (ops : List StorageOp)
    (hcap : 0 ≤ props.capacity_wh)
    (hc : 0 ≤ props.max_charge_rate_watts)
    (hd : 0 ≤ props.max_discharge_rate_watts)
    (hinit : init = initial_battery_state props.capacity_wh ∨
             init = initial_ev_state props.capacity_wh)
    (hops : ∀ op ∈ ops, op_rate_nonneg op) :
    props.capacity_wh * (1/10) ≤ (run_storage props init ops).current_charge_wh ∧
    (run_storage props init ops).current_charge_wh ≤ props.capacity_wh := by
  have hst : storage_inv props.capacity_wh init := by
    rcases hinit with h | h <;> subst h
    · exact ⟨by simp [initial_battery_state]; linarith,
        by simp [initial_battery_state]; linarith, le_refl 0⟩
    · exact ⟨by simp [initial_ev_state]; linarith,
        by simp [initial_ev_state]; linarith, le_refl 0⟩
  have := run_storage_inv props ops init hcap hc hd hops hst
  exact ⟨this.1, this.2.1⟩

/-- Witness for `storage_charge_always_bounded`: a Battery of capacity
1000 Wh, discharged at its max rate for one tick, stays within bounds. -/
theorem storage_charge_always_bounded_witness :
    ((0:ℚ) ≤ 1000 ∧ (0:ℚ) ≤ 2000) ∧
    ((1000:ℚ) * (1/10) ≤
        (run_storage ⟨1000, 2000, 2000⟩ (initial_battery_state 1000)
          [StorageOp.setMode DeviceMode.discharging none,
           StorageOp.tick]).current_charge_wh ∧
      (run_storage ⟨1000, 2000, 2000⟩ (initial_battery_state 1000)
          [StorageOp.setMode DeviceMode.discharging none,
           StorageOp.tick]).current_charge_wh ≤ 1000) := by
  refine ⟨⟨by norm_num, by norm_num⟩, ?_⟩
  refine storage_charge_always_bounded ⟨1000, 2000, 2000⟩
    (initial_battery_state 1000) _ (by norm_num) (by norm_num) (by norm_num)
    (Or.inl rfl) ?_
  intro op hop
  simp only [List.mem_cons, List.not_mem_nil, or_false] at hop
  rcases hop with rfl | rfl <;> trivial

/-- Claim C2: the signed power convention of `Device.current_power_watts`:
a SolarPanel yields `+output_watts`; an Appliance yields
`-power_draw_watts` when on and `0` when off; a storage device yields
`+rate_watts` when Discharging, `-rate_watts` when Charging, `0` when Idle. -/
theorem signed_power_convention :
    (∀ out : ℚ, current_power_watts (DeviceState.solar out) = out) ∧
    (∀ draw : ℚ,
      current_power_watts (DeviceState.appliance true draw) = -draw) ∧
    (∀ draw : ℚ,
      current_power_watts (DeviceState.appliance false draw) = 0) ∧
    (∀ (cap : ℚ) (st : StorageState), st.mode = DeviceMode.discharging →
      current_power_watts (DeviceState.storage cap st) = st.current_rate_watts) ∧
    (∀ (cap : ℚ) (st : StorageState), st.mode = DeviceMode.charging →
      current_power_watts (DeviceState.storage cap st) = -st.current_rate_watts) ∧
    (∀ (cap : ℚ) (st : StorageState), st.mode = DeviceMode.idle →
      current_power_watts (DeviceState.storage cap st) = 0) := by
  refine ⟨fun _ => rfl, fun _ => by simp [current_power_watts],
    fun _ => by simp [current_power_watts], ?_, ?_, ?_⟩ <;>
    · intro cap st h
      simp [current_power_watts, h]

/-- Claim C3: whenever a tick computes a `new_charge` at or past a boundary
(charging with `new_charge ≥ capacity`, or discharging with
`new_charge ≤ capacity * 0.1`), the state returned by that same tick has
`mode = Idle` and `rate_watts = 0` together with the new charge. -/
theorem auto_idle_same_tick (capacity : ℚ) (st : StorageState)
    (h : (st.mode = DeviceMode.charging ∧
            capacity ≤ update_storage_charge capacity st 60) ∨
         (st.mode = DeviceMode.discharging ∧
            update_storage_charge capacity st 60 ≤ capacity * (1/10))) :
    (simulate_storage capacity st).mode = DeviceMode.idle ∧
    (simulate_storage capacity st).current_rate_watts = 0 ∧
    (simulate_storage capacity st).current_charge_wh =
      update_storage_charge capacity st 60 := by
  have hb : should_auto_idle capacity st.mode
      (update_storage_charge capacity st 60) = true := by
    simp only [should_auto_idle, decide_eq_true_eq]
    exact h
  simp [simulate_storage, hb]

/-- Witness for `auto_idle_same_tick`: a Battery at full charge still in
Charging mode at 3600 W overshoots the capacity on the next tick and is
forced idle in the same patch. -/
theorem auto_idle_same_tick_witness :
    ((⟨1000, DeviceMode.charging, 3600⟩ : StorageState).mode =
        DeviceMode.charging ∧
      (1000:ℚ) ≤ update_storage_charge 1000 ⟨1000, DeviceMode.charging, 3600⟩ 60) ∧
    ((simulate_storage 1000 ⟨1000, DeviceMode.charging, 3600⟩).mode =
        DeviceMode.idle ∧
      (simulate_storage 1000 ⟨1000, DeviceMode.charging, 3600⟩).current_rate_watts = 0 ∧
      (simulate_storage 1000 ⟨1000, DeviceMode.charging, 3600⟩).current_charge_wh =
        update_storage_charge 1000 ⟨1000, DeviceMode.charging, 3600⟩ 60) := by
  refine ⟨⟨rfl, by norm_num [update_storage_charge, min_def]⟩, ?_⟩
  exact auto_idle_same_tick 1000 ⟨1000, DeviceMode.charging, 3600⟩
    (Or.inl ⟨rfl, by norm_num [update_storage_charge, min_def]⟩)

/-- Claim C8, counterexample: a Battery with `max_charge_rate_watts = 2000`
given an explicit rate of `-5` for Charging stores an effective rate of
`-5`, not `0` — `min(rate, max_rate)` does not clamp negative rates. -/
theorem negative_rate_counterexample :
    (set_storage_mode ⟨1000, 2000, 2000⟩ (initial_battery_state 1000)
        DeviceMode.charging (some (-5))).current_rate_watts = -5 ∧
    (-5 : ℚ) ≠ 0 := by
  decide

/-- Claim C8 (amended): for a Charging or Discharging mode whose max rate is
positive, a supplied negative explicit rate is stored as-is (the clamp
`min(rate, max_rate)` leaves a negative rate unchanged), not clamped to 0. -/
theorem negative_rate_stored_as_is (props : StorageProps) (st : StorageState)
    (mode : DeviceMode) (r : ℚ) (hr : r < 0)
    (hmode : (mode = DeviceMode.charging ∧ 0 < props.max_charge_rate_watts) ∨
             (mode = DeviceMode.discharging ∧ 0 < props.max_discharge_rate_watts)) :
    (set_storage_mode props st mode (some r)).current_rate_watts = r := by
  rcases hmode with ⟨rfl, h⟩ | ⟨rfl, h⟩ <;>
    simp [set_storage_mode, h, min_eq_left (le_of_lt (lt_trans hr h))]

/-- Witness for `negative_rate_stored_as_is`: the rate `-5` survives the
clamp on a Battery whose max charge rate is 2000 W. -/
theorem negative_rate_stored_as_is_witness :
    ((-5 : ℚ) < 0 ∧ (0:ℚ) < 2000) ∧
    (set_storage_mode ⟨1000, 2000, 2000⟩ (initial_battery_state 1000)
        DeviceMode.charging (some (-5))).current_rate_watts = -5 := by
  refine ⟨⟨by norm_num, by norm_num⟩, ?_⟩
  exact negative_rate_stored_as_is ⟨1000, 2000, 2000⟩ (initial_battery_state 1000)
    DeviceMode.charging (-5) (by norm_num) (Or.inl ⟨rfl, by norm_num⟩)

/-- Fractional hour-of-day of a timestamp (in minutes since the epoch):
`hour = timestamp.hour + timestamp.minute / 60.0`. -/
def hour_of (t : ℕ) : ℚ := ((t % 1440 : ℕ) : ℚ) / 60

/-- `TelemetryService.calculate_solar_output`: Gaussian curve centred at
`SOLAR_PEAK_HOUR = 12` with width `SOLAR_CURVE_WIDTH = 4`, zero at night,
scaled by the rated capacity, perturbed by the `random.uniform(-0.15, 0.15)`
draw (passed here explicitly as `variation`), and clamped to
`[0, rated_capacity_watts]`. -/
noncomputable def calculate_solar_output (rated_capacity_watts : ℝ) (t : ℕ)
    (variation : ℝ) : ℝ :=
  let hour := hour_of t
  if hour < 6 ∨ 20 < hour then 0
  else
    let exponent : ℝ := -(((hour : ℝ) - 12) ^ 2) / (2 * 4 ^ 2)
    let base_output := rated_capacity_watts * Real.exp exponent
    let output := base_output * (1 + variation)
    max 0 (min output rated_capacity_watts)

/-- Claim C4: solar output is exactly 0 when the fractional hour-of-day is
before 6 or after 20, for any rated capacity; for a non-negative rated
capacity it always lies in `[0, rated_capacity_watts]`; and with the random
variation pinned to 0 the output at hour 12 is exactly
`rated_capacity_watts`. -/
theorem solar_output_bounds (rated : ℝ) (variation : ℝ) (t : ℕ) :
    ((hour_of t < 6 ∨ 20 < hour_of t) →
      calculate_solar_output rated t variation = 0) ∧
    (0 ≤ rated →
      0 ≤ calculate_solar_output rated t variation ∧
      calculate_solar_output rated t variation ≤ rated) ∧
    (0 ≤ rated → hour_of t = 12 → calculate_solar_output rated t 0 = rated) := by
  refine ⟨?_, ?_, ?_⟩
  · intro h
    simp [calculate_solar_output, h]
  · intro hrated
    by_cases h : hour_of t < 6 ∨ 20 < hour_of t
    · simp [calculate_solar_output, h, hrated]
    · simp only [calculate_solar_output, h, if_false]
      exact ⟨le_max_left 0 _, max_le hrated (min_le_right _ _)⟩
  · intro hrated h
    have h6 : ¬(hour_of t < 6 ∨ 20 < hour_of t) := by rw [h]; norm_num
    have h12 : ((hour_of t : ℚ) : ℝ) = 12 := by rw [h]; norm_num
    simp only [calculate_solar_output, h6, if_false]
    rw [h12]
    norm_num [Real.exp_zero]
    exact hrated

/-- Witness for `solar_output_bounds`: a 100 W panel at timestamp 720
(12:00) with the variation pinned to 0 produces exactly 100 W, and the
output is within bounds. -/
theorem solar_output_bounds_witness :
    (0:ℝ) ≤ 100 ∧ hour_of 720 = 12 ∧
    calculate_solar_output 100 720 0 = 100 := by
  refine ⟨by norm_num, by norm_num [hour_of], ?_⟩
  exact (solar_output_bounds 100 0 720).2.2 (by norm_num)
    (by norm_num [hour_of])

/-- One row of the device store, as `EnergyService` sees it: the active
flag plus the typed state (which carries the static data the summary
reads). -/
structure Dev where
  is_active : Bool
  state : DeviceState
deriving DecidableEq, Repr

/-- `StorageState` dataclass of `energy_service.py` (the identity fields
are irrelevant to the claims and omitted). -/
structure StorageStateSummary where
  capacity_wh : ℚ
  current_charge_wh : ℚ
  charge_percentage : ℚ
  mode : DeviceMode
deriving DecidableEq, Repr

/-- `EnergySummary` dataclass of `energy_service.py`. -/
structure EnergySummary where
  total_production_watts : ℚ
  total_consumption_watts : ℚ
  net_power_watts : ℚ
  storage_states : List StorageStateSummary
deriving DecidableEq, Repr

/-- `Device.charge_percentage` from `core/models.py` (storage devices). -/
def charge_percentage (capacity current : ℚ) : ℚ :=
  if 0 < capacity then current / capacity * 100 else 0

/-- The loop body of `EnergyService.get_energy_summary`: accumulate
production for positive power, consumption (absolute value) for negative
power, and collect storage states. -/
def summary_acc (acc : ℚ × ℚ × List StorageStateSummary) (d : Dev) :
    ℚ × ℚ × List StorageStateSummary :=
  let power := current_power_watts d.state
  let prod := if 0 < power then acc.1 + power else acc.1
  let cons := if power < 0 then acc.2.1 + |power| else acc.2.1
  let stores :=
    match d.state with
    | DeviceState.storage cap st =>
        acc.2.2 ++ [⟨cap, st.current_charge_wh,
          charge_percentage cap st.current_charge_wh, st.mode⟩]
    | _ => acc.2.2
  (prod, cons, stores)

/-- `EnergyService.get_energy_summary`: a single pass over all active
devices. -/
def get_energy_summary (devices : List Dev) : EnergySummary :=
  let acc := (devices.filter (fun d => d.is_active)).foldl summary_acc (0, 0, [])
  { total_production_watts := acc.1
    total_consumption_watts := acc.2.1
    net_power_watts := acc.1 - acc.2.1
    storage_states := acc.2.2 }

lemma summary_foldl_spec (ds : List Dev) (a b : ℚ)
    (l : List StorageStateSummary) :
    (ds.foldl summary_acc (a, b, l)).1 =
      a + ((ds.map (fun d => current_power_watts d.state)).filter
            (fun p => decide (0 < p))).sum ∧
    (ds.foldl summary_acc (a, b, l)).2.1 =
      b + (((ds.map (fun d => current_power_watts d.state)).filter
            (fun p => decide (p < 0))).map (fun p => |p|)).sum := by
  induction ds generalizing a b l with
  | nil => simp
  | cons d rest ih =>
      simp only [List.foldl_cons, List.map_cons, List.filter_cons, summary_acc]
      rcases lt_trichotomy (current_power_watts d.state) 0 with h | h | h
      · have h1 : ¬ (0 < current_power_watts d.state) := asymm h
        rw [if_neg h1, if_pos h, if_neg (by simpa using h1),
          if_pos (by simpa using h)]
        obtain ⟨ih1, ih2⟩ := ih a (b + |current_power_watts d.state|) _
        refine ⟨by rw [ih1], ?_⟩
        rw [ih2, List.map_cons, List.sum_cons]
        ring
      · have h1 : ¬ (0 < current_power_watts d.state) := by rw [h]; norm_num
        have h2 : ¬ (current_power_watts d.state < 0) := by rw [h]; norm_num
        rw [if_neg h1, if_neg h2, if_neg (by simpa using h1),
          if_neg (by simpa using h2)]
        exact ih a b _
      · have h1 : ¬ (current_power_watts d.state < 0) := asymm h
        rw [if_pos h, if_neg h1, if_pos (by simpa using h),
          if_neg (by simpa using h1)]
        obtain ⟨ih1, ih2⟩ := ih (a + current_power_watts d.state) b _
        refine ⟨?_, by rw [ih2]⟩
        rw [ih1, List.sum_cons]
        ring

/-- Claim C7: `GetEnergySummary` returns `total_production` equal to the sum
of signed power over active devices with positive power, `total_consumption`
equal to the sum of absolute power over active devices with negative power,
and `net = total_production - total_consumption`; on one Solar device at
+2500 W and one Appliance at −1500 W it yields 2500 / 1500 / 1000. -/
theorem energy_summary_totals (devices : List Dev) :
    (get_energy_summary devices).total_production_watts =
      (((devices.filter (fun d => d.is_active)).map
          (fun d => current_power_watts d.state)).filter
        (fun p => decide (0 < p))).sum ∧
    (get_energy_summary devices).total_consumption_watts =
      ((((devices.filter (fun d => d.is_active)).map
          (fun d => current_power_watts d.state)).filter
        (fun p => decide (p < 0))).map (fun p => |p|)).sum ∧
    (get_energy_summary devices).net_power_watts =
      (get_energy_summary devices).total_production_watts -
        (get_energy_summary devices).total_consumption_watts ∧
    (get_energy_summary
        [⟨true, DeviceState.solar 2500⟩,
         ⟨true, DeviceState.appliance true 1500⟩]).total_production_watts = 2500 ∧
    (get_energy_summary
        [⟨true, DeviceState.solar 2500⟩,
         ⟨true, DeviceState.appliance true 1500⟩]).total_consumption_watts = 1500 ∧
    (get_energy_summary
        [⟨true, DeviceState.solar 2500⟩,
         ⟨true, DeviceState.appliance true 1500⟩]).net_power_watts = 1000 := by
  obtain ⟨h1, h2⟩ := summary_foldl_spec (devices.filter (fun d => d.is_active))
    0 0 []
  refine ⟨by simpa using h1, by simpa using h2, rfl, ?_, ?_, ?_⟩ <;>
    · simp only [get_energy_summary, List.filter, List.foldl, summary_acc,
        current_power_watts]
      norm_num

/-- `TelemetryReading` from `core/models.py`: `device` is an opaque device
id, `timestamp` is in minutes since the epoch, `charge_wh` is null for
non-storage devices.  (The `state_snapshot` audit field plays no role in any
claim and is omitted.) -/
structure Reading where
  device : ℕ
  timestamp : ℕ
  power_watts : ℚ
  charge_wh : Option ℚ
deriving DecidableEq, Repr

/-- The `(device, timestamp)` key enforced unique by the
`unique_device_timestamp` constraint. -/
def reading_key (r : Reading) : ℕ × ℕ := (r.device, r.timestamp)

/-- `TelemetryService.record_telemetry`: `update_or_create` keyed by
`(device, timestamp)` — when a row with the key exists its fields are
replaced, otherwise a new row is inserted. -/
def record_telemetry (store : List Reading) (r : Reading) : List Reading :=
  if store.any (fun x => reading_key x = reading_key r) then
    store.map (fun x => if reading_key x = reading_key r then r else x)
  else
    store ++ [r]

lemma record_telemetry_keys (store : List Reading) (r : Reading) :
    (record_telemetry store r).map reading_key =
      if store.any (fun x => decide (reading_key x = reading_key r)) then
        store.map reading_key
      else store.map reading_key ++ [reading_key r] := by
  unfold record_telemetry
  split
  · rw [List.map_map]
    refine List.map_congr_left ?_
    intro x _
    by_cases hk : reading_key x = reading_key r
    · simp [hk]
    · simp [hk]
  · simp

lemma record_telemetry_keys_nodup (store : List Reading) (r : Reading)
    (h : (store.map reading_key).Nodup) :
    ((record_telemetry store r).map reading_key).Nodup := by
  rw [record_telemetry_keys]
  split
  · exact h
  · rename_i hany
    rw [List.nodup_append]
    refine ⟨h, List.nodup_singleton _, ?_⟩
    intro k hk hk'
    simp only [List.mem_singleton] at hk'
    subst hk'
    obtain ⟨x, hx, hxk⟩ := List.mem_map.mp hk
    exact hany (List.any_eq_true.mpr ⟨x, hx, by simp [hxk]⟩)

/-- Claim C6: recording telemetry a second time for the same
`(device, timestamp)` replaces the prior reading's fields rather than
inserting; after any sequence of `RecordTelemetry` calls on a store with
unique keys, the store never holds two readings with the same key. -/
theorem record_telemetry_upsert (store : List Reading) (rs : List Reading)
    (h : (store.map reading_key).Nodup) :
    ((rs.foldl record_telemetry store).map reading_key).Nodup ∧
    (∀ r : Reading, (∃ x ∈ store, reading_key x = reading_key r) →
      (record_telemetry store r).length = store.length ∧
      r ∈ record_telemetry store r) := by
  constructor
  · induction rs generalizing store with
    | nil => exact h
    | cons r rest ih =>
        exact ih (record_telemetry store r)
          (record_telemetry_keys_nodup store r h)
  · rintro r ⟨x, hx, hk⟩
    have hany : store.any (fun x => decide (reading_key x = reading_key r)) = true :=
      List.any_eq_true.mpr ⟨x, hx, by simp [hk]⟩
    unfold record_telemetry
    rw [if_pos hany]
    refine ⟨by simp, ?_⟩
    refine List.mem_map.mpr ⟨x, hx, ?_⟩
    simp [hk]

/-- Witness for `record_telemetry_upsert`: recording two readings with the
same key into an empty store leaves a single row. -/
theorem record_telemetry_upsert_witness :
    (([] : List Reading).map reading_key).Nodup ∧
    ((([⟨1, 5, 10, none⟩, ⟨1, 5, 20, none⟩] :
        List Reading).foldl record_telemetry []).map reading_key).Nodup := by
  refine ⟨by simp, ?_⟩
  exact (record_telemetry_upsert [] [⟨1, 5, 10, none⟩, ⟨1, 5, 20, none⟩]
    (by simp)).1

/-- `TruncHour`: truncate a timestamp (minutes since epoch) to the start of
its hour. -/
def truncHour (t : ℕ) : ℕ := t - t % 60

/-- `TruncDay`: truncate to midnight. -/
def truncDay (t : ℕ) : ℕ := t - t % 1440

/-- `TruncWeek`: truncate to midnight on Monday.  Day 0 (0001-01-01 of the
proleptic Gregorian calendar) is a Monday, so the Monday of day `d`'s week
is `d - d % 7`. -/
def truncWeek (t : ℕ) : ℕ := (t / 1440 - t / 1440 % 7) * 1440

/-- Civil date `(year, month, day)` from a count of days since 0000-03-01
(proleptic Gregorian). -/
def civilFromDays (g : ℕ) : ℕ × ℕ × ℕ :=
  let era := g / 146097
  let doe := g % 146097
  let yoe := (doe - doe / 1460 + doe / 36524 - doe / 146096) / 365
  let y := yoe + era * 400
  let doy := doe - (365 * yoe + yoe / 4 - yoe / 100)
  let mp := (5 * doy + 2) / 153
  let d := doy - (153 * mp + 2) / 5 + 1
  let m := if mp < 10 then mp + 3 else mp - 9
  (if m ≤ 2 then y + 1 else y, m, d)

/-- Days since 0000-03-01 of a civil date (proleptic Gregorian). -/
def daysFromCivil (y m d : ℕ) : ℕ :=
  let y' := y - (if m ≤ 2 then 1 else 0)
  let era := y' / 400
  let yoe := y' % 400
  let mp := (m + 9) % 12
  let doy := (153 * mp + 2) / 5 + d - 1
  let doe := yoe * 365 + yoe / 4 - yoe / 100 + doy
  era * 146097 + doe

/-- `TruncMonth`: midnight on the first day of the timestamp's month. -/
def truncMonth (t : ℕ) : ℕ :=
  let g := t / 1440 + 306
  let c := civilFromDays g
  (daysFromCivil c.1 c.2.1 1 - 306) * 1440

/-- The `truncate_fn` dispatch of `get_telemetry_aggregated`: a dict lookup
whose default sends every unknown interval string to hourly truncation. -/
def truncate_fn (interval : String) : ℕ → ℕ :=
  if interval = "hour" then truncHour
  else if interval = "day" then truncDay
  else if interval = "week" then truncWeek
  else if interval = "month" then truncMonth
  else truncHour

/-- Largest element of a list of rationals (`Max` aggregate); 0 on the
empty list, which never arises for a bucket. -/
def listMax : List ℚ → ℚ
  | [] => 0
  | x :: xs => xs.foldl max x

/-- Smallest element of a list of rationals (`Min` aggregate). -/
def listMin : List ℚ → ℚ
  | [] => 0
  | x :: xs => xs.foldl min x

lemma foldl_max_mem (l : List ℚ) (a : ℚ) :
    l.foldl max a = a ∨ l.foldl max a ∈ l := by
  induction l generalizing a with
  | nil => exact Or.inl rfl
  | cons x xs ih =>
      rcases ih (max a x) with h | h
      · rw [List.foldl_cons, h]
        rcases le_total a x with hx | hx
        · exact Or.inr (by simp [max_eq_right hx])
        · exact Or.inl (max_eq_left hx)
      · exact Or.inr (List.mem_cons_of_mem x h)

lemma le_foldl_max (l : List ℚ) (a : ℚ) :
    a ≤ l.foldl max a ∧ ∀ q ∈ l, q ≤ l.foldl max a := by
  induction l generalizing a with
  | nil => exact ⟨le_refl a, by simp⟩
  | cons x xs ih =>
      obtain ⟨h1, h2⟩ := ih (max a x)
      refine ⟨le_trans (le_max_left a x) h1, ?_⟩
      intro q hq
      rcases List.mem_cons.mp hq with rfl | hq
      · exact le_trans (le_max_right a q) h1
      · exact h2 q hq

lemma listMax_mem (l : List ℚ) (h : l ≠ []) : listMax l ∈ l := by
  cases l with
  | nil => exact absurd rfl h
  | cons x xs =>
      rcases foldl_max_mem xs x with h1 | h1
      · rw [listMax, h1]; exact List.mem_cons_self x xs
      · rw [listMax]; exact List.mem_cons_of_mem x h1

lemma le_listMax (l : List ℚ) (q : ℚ) (hq : q ∈ l) : q ≤ listMax l := by
  cases l with
  | nil => simp at hq
  | cons x xs =>
      rcases List.mem_cons.mp hq with rfl | hq
      · exact (le_foldl_max xs q).1
      · exact (le_foldl_max xs x).2 q hq

lemma foldl_min_mem (l : List ℚ) (a : ℚ) :
    l.foldl min a = a ∨ l.foldl min a ∈ l := by
  induction l generalizing a with
  | nil => exact Or.inl rfl
  | cons x xs ih =>
      rcases ih (min a x) with h | h
      · rw [List.foldl_cons, h]
        rcases le_total a x with hx | hx
        · exact Or.inl (min_eq_left hx)
        · exact Or.inr (by simp [min_eq_right hx])
      · exact Or.inr (List.mem_cons_of_mem x h)

lemma foldl_min_le (l : List ℚ) (a : ℚ) :
    l.foldl min a ≤ a ∧ ∀ q ∈ l, l.foldl min a ≤ q := by
  induction l generalizing a with
  | nil => exact ⟨le_refl a, by simp⟩
  | cons x xs ih =>
      obtain ⟨h1, h2⟩ := ih (min a x)
      refine ⟨le_trans h1 (min_le_left a x), ?_⟩
      intro q hq
      rcases List.mem_cons.mp hq with rfl | hq
      · exact le_trans h1 (min_le_right a q)
      · exact h2 q hq

lemma listMin_mem (l : List ℚ) (h : l ≠ []) : listMin l ∈ l := by
  cases l with
  | nil => exact absurd rfl h
  | cons x xs =>
      rcases foldl_min_mem xs x with h1 | h1
      · rw [listMin, h1]; exact List.mem_cons_self x xs
      · rw [listMin]; exact List.mem_cons_of_mem x h1

lemma listMin_le (l : List ℚ) (q : ℚ) (hq : q ∈ l) : listMin l ≤ q := by
  cases l with
  | nil => simp at hq
  | cons x xs =>
      rcases List.mem_cons.mp hq with rfl | hq
      · exact (foldl_min_le xs q).1
      · exact (foldl_min_le xs x).2 q hq

/-- One row of the aggregated query result. -/
structure Bucket where
  period : ℕ
  avg_power : ℚ
  max_power : ℚ
  min_power : ℚ
  avg_charge : Option ℚ
deriving DecidableEq, Repr

/-- The SQL aggregates of one group: `Avg`/`Max`/`Min` of `power_watts` and
`Avg` of `charge_wh` (which skips nulls and is null when every charge is
null). -/
def agg_bucket (p : ℕ) (rs : List Reading) : Bucket :=
  let powers := rs.map (fun r => r.power_watts)
  let charges := rs.filterMap (fun r => r.charge_wh)
  { period := p
    avg_power := powers.sum / powers.length
    max_power := listMax powers
    min_power := listMin powers
    avg_charge :=
      if charges.isEmpty then none
      else some (charges.sum / charges.length) }

/-- The row filter of `get_telemetry_aggregated`: readings of `device` with
`start_time ≤ timestamp ≤ end_time`. -/
def matches_query (dev start_time end_time : ℕ) (r : Reading) : Bool :=
  decide (r.device = dev ∧ start_time ≤ r.timestamp ∧ r.timestamp ≤ end_time)

/-- `TelemetryService.get_telemetry_aggregated`: filter the device's
readings to the time range, annotate each with its truncated period, group
by period, aggregate each group, order by period ascending. -/
def get_telemetry_aggregated (store : List Reading)
    (dev start_time end_time : ℕ) (interval : String) : List Bucket :=
  let f := truncate_fn interval
  let filtered := store.filter (matches_query dev start_time end_time)
  let periods :=
    ((filtered.map (fun r => f r.timestamp)).dedup).insertionSort (· ≤ ·)
  periods.map (fun p =>
    agg_bucket p (filtered.filter (fun r => decide (f r.timestamp = p))))

/-- Claim C10: for any interval string outside
`{hour, day, week, month}`, `get_telemetry_aggregated` does not fail but
silently falls back to hourly truncation, returning exactly the buckets of
an `interval = "hour"` call. -/
theorem unknown_interval_falls_back_to_hour (store : List Reading)
    (dev start_time end_time : ℕ) (interval : String)
    (h : interval ∉ (["hour", "day", "week", "month"] : List String)) :
    get_telemetry_aggregated store dev start_time end_time interval =
      get_telemetry_aggregated store dev start_time end_time "hour" := by
  have h1 : interval ≠ "hour" := fun he => h (by simp [he])
  have h2 : interval ≠ "day" := fun he => h (by simp [he])
  have h3 : interval ≠ "week" := fun he => h (by simp [he])
  have h4 : interval ≠ "month" := fun he => h (by simp [he])
  have hf : truncate_fn interval = truncate_fn "hour" := by
    simp [truncate_fn, h1, h2, h3, h4]
  simp only [get_telemetry_aggregated, hf]

/-- Witness for `unknown_interval_falls_back_to_hour`: the unknown interval
`"minute"` behaves exactly like `"hour"`. -/
theorem unknown_interval_falls_back_to_hour_witness :
    ("minute" ∉ (["hour", "day", "week", "month"] : List String)) ∧
    get_telemetry_aggregated [⟨1, 605, 10, none⟩] 1 0 2000 "minute" =
      get_telemetry_aggregated [⟨1, 605, 10, none⟩] 1 0 2000 "hour" := by
  refine ⟨by simp, ?_⟩
  exact unknown_interval_falls_back_to_hour [⟨1, 605, 10, none⟩] 1 0 2000
    "minute" (by simp)

/-- The readings that belong to bucket `p` of an aggregation query: the
device's readings in `[start_time, end_time]` whose truncated timestamp is
`p`. -/
def bucket_readings (store : List Reading) (dev start_time end_time : ℕ)
    (interval : String) (p : ℕ) : List Reading :=
  store.filter (fun r => decide (r.device = dev ∧ start_time ≤ r.timestamp ∧
    r.timestamp ≤ end_time ∧ truncate_fn interval r.timestamp = p))

lemma get_telemetry_aggregated_def (store : List Reading)
    (dev start_time end_time : ℕ) (interval : String) :
    get_telemetry_aggregated store dev start_time end_time interval =
      ((((store.filter (matches_query dev start_time end_time)).map
          (fun r => truncate_fn interval r.timestamp)).dedup).insertionSort
        (· ≤ ·)).map
        (fun p => agg_bucket p
          ((store.filter (matches_query dev start_time end_time)).filter
            (fun r => decide (truncate_fn interval r.timestamp = p)))) := rfl

lemma bucket_readings_eq (store : List Reading)
    (dev start_time end_time : ℕ) (interval : String) (p : ℕ) :
    (store.filter (matches_query dev start_time end_time)).filter
        (fun r => decide (truncate_fn interval r.timestamp = p)) =
      bucket_readings store dev start_time end_time interval p := by
  rw [List.filter_filter]
  refine List.filter_congr ?_
  intro r _
  by_cases hA : r.device = dev <;> by_cases hB : start_time ≤ r.timestamp <;>
    by_cases hC : r.timestamp ≤ end_time <;>
    by_cases hD : truncate_fn interval r.timestamp = p <;>
    simp [matches_query, hA, hB, hC, hD]

lemma periods_mem (store : List Reading) (dev start_time end_time : ℕ)
    (interval : String) (p : ℕ) :
    p ∈ (((store.filter (matches_query dev start_time end_time)).map
        (fun r => truncate_fn interval r.timestamp)).dedup).insertionSort (· ≤ ·) ↔
      ∃ r ∈ store, r.device = dev ∧ start_time ≤ r.timestamp ∧
        r.timestamp ≤ end_time ∧ truncate_fn interval r.timestamp = p := by
  rw [List.Perm.mem_iff (List.perm_insertionSort _ _), List.mem_dedup,
    List.mem_map]
  constructor
  · rintro ⟨r, hr, hrp⟩
    obtain ⟨hrmem, hq⟩ := List.mem_filter.mp hr
    obtain ⟨h1, h2, h3⟩ : r.device = dev ∧ start_time ≤ r.timestamp ∧
        r.timestamp ≤ end_time := by simpa [matches_query] using hq
    exact ⟨r, hrmem, h1, h2, h3, hrp⟩
  · rintro ⟨r, hr, h1, h2, h3, h4⟩
    exact ⟨r, List.mem_filter.mpr ⟨hr, by simp [matches_query, h1, h2, h3]⟩, h4⟩

/-- Claim C5: `GetAggregatedTelemetry` returns buckets whose periods are
strictly ascending; a period appears exactly when some reading of the
device with `start ≤ timestamp ≤ end` truncates to it (periods with zero
readings are omitted, never zero-filled); and each bucket aggregates
exactly its readings: `avg`/`max`/`min` of `power_watts` and `avg` of
`charge_wh` ignoring absent values. -/
theorem telemetry_aggregation_spec (store : List Reading)
    (dev start_time end_time : ℕ) (interval : String) :
    ((get_telemetry_aggregated store dev start_time end_time interval).map
        Bucket.period).Pairwise (· < ·) ∧
    (∀ p : ℕ,
      (∃ b ∈ get_telemetry_aggregated store dev start_time end_time interval,
        b.period = p) ↔
      (∃ r ∈ store, r.device = dev ∧ start_time ≤ r.timestamp ∧
        r.timestamp ≤ end_time ∧ truncate_fn interval r.timestamp = p)) ∧
    (∀ b ∈ get_telemetry_aggregated store dev start_time end_time interval,
      bucket_readings store dev start_time end_time interval b.period ≠ [] ∧
      b = agg_bucket b.period
        (bucket_readings store dev start_time end_time interval b.period) ∧
      b.avg_power =
        ((bucket_readings store dev start_time end_time interval b.period).map
            (fun r => r.power_watts)).sum /
          ((bucket_readings store dev start_time end_time interval b.period).map
            (fun r => r.power_watts)).length ∧
      (b.max_power ∈
          (bucket_readings store dev start_time end_time interval b.period).map
            (fun r => r.power_watts) ∧
        ∀ q ∈ (bucket_readings store dev start_time end_time interval
            b.period).map (fun r => r.power_watts), q ≤ b.max_power) ∧
      (b.min_power ∈
          (bucket_readings store dev start_time end_time interval b.period).map
            (fun r => r.power_watts) ∧
        ∀ q ∈ (bucket_readings store dev start_time end_time interval
            b.period).map (fun r => r.power_watts), b.min_power ≤ q) ∧
      b.avg_charge =
        (if ((bucket_readings store dev start_time end_time interval
              b.period).filterMap (fun r => r.charge_wh)).isEmpty then none
         else some
           (((bucket_readings store dev start_time end_time interval
              b.period).filterMap (fun r => r.charge_wh)).sum /
            ((bucket_readings store dev start_time end_time interval
              b.period).filterMap (fun r => r.charge_wh)).length))) := by
  have hout : get_telemetry_aggregated store dev start_time end_time interval =
      ((((store.filter (matches_query dev start_time end_time)).map
          (fun r => truncate_fn interval r.timestamp)).dedup).insertionSort
        (· ≤ ·)).map
        (fun p => agg_bucket p
          (bucket_readings store dev start_time end_time interval p)) := by
    rw [get_telemetry_aggregated_def]
    exact List.map_congr_left fun p _ => by
      rw [bucket_readings_eq store dev start_time end_time interval p]
  have hsorted : (List.insertionSort (· ≤ ·)
      (((store.filter (matches_query dev start_time end_time)).map
        (fun r => truncate_fn interval r.timestamp)).dedup)).Sorted (· ≤ ·) :=
    List.sorted_insertionSort _ _
  have hnodup : (List.insertionSort (· ≤ ·)
      (((store.filter (matches_query dev start_time end_time)).map
        (fun r => truncate_fn interval r.timestamp)).dedup)).Nodup :=
    ((List.perm_insertionSort _ _).nodup_iff).mpr (List.nodup_dedup _)
  have hmap : (get_telemetry_aggregated store dev start_time end_time
      interval).map Bucket.period =
      List.insertionSort (· ≤ ·)
        (((store.filter (matches_query dev start_time end_time)).map
          (fun r => truncate_fn interval r.timestamp)).dedup) := by
    rw [hout, List.map_map]
    simp [Function.comp_def, agg_bucket]
  refine ⟨?_, ?_, ?_⟩
  · rw [hmap]
    exact (hsorted.and hnodup).imp fun h => lt_of_le_of_ne h.1 h.2
  · intro p
    rw [show (∃ b ∈ get_telemetry_aggregated store dev start_time end_time
        interval, b.period = p) ↔
        p ∈ (get_telemetry_aggregated store dev start_time end_time
          interval).map Bucket.period from List.mem_map.symm]
    rw [hmap]
    exact periods_mem store dev start_time end_time interval p
  · intro b hb
    rw [hout] at hb
    obtain ⟨p, hp, rfl⟩ := List.mem_map.mp hb
    have hper : (agg_bucket p
        (bucket_readings store dev start_time end_time interval p)).period = p :=
      rfl
    rw [hper]
    have hpmem := (periods_mem store dev start_time end_time interval p).mp hp
    obtain ⟨r, hr, h1, h2, h3, h4⟩ := hpmem
    have hrmem : r ∈ bucket_readings store dev start_time end_time interval p :=
      List.mem_filter.mpr ⟨hr, by simp [h1, h2, h3, h4]⟩
    have hne : bucket_readings store dev start_time end_time interval p ≠ [] :=
      List.ne_nil_of_mem hrmem
    have hpne : (bucket_readings store dev start_time end_time interval p).map
        (fun r => r.power_watts) ≠ [] := by
      simpa [List.map_eq_nil_iff] using hne
    refine ⟨hne, rfl, rfl, ⟨?_, ?_⟩, ⟨?_, ?_⟩, rfl⟩
    · exact listMax_mem _ hpne
    · intro q hq
      exact le_listMax _ q hq
    · exact listMin_mem _ hpne
    · intro q hq
      exact listMin_le _ q hq

/-- A JSON `properties` dict: numeric configuration values keyed by string,
kept in insertion order (numbers are the only value kind the property
schemas use). -/
abbrev PropsDict := List (String × ℚ)

/-- `DeviceService.REQUIRED_PROPERTIES`. -/
def REQUIRED_PROPERTIES : DeviceType → List String
  | DeviceType.solar_panel => ["rated_capacity_watts"]
  | DeviceType.battery =>
      ["capacity_wh", "max_charge_rate_watts", "max_discharge_rate_watts"]
  | DeviceType.electric_vehicle =>
      ["battery_capacity_wh", "max_charge_rate_watts",
       "max_discharge_rate_watts"]
  | DeviceType.appliance => ["average_power_draw_watts"]

/-- Python `dict.get(key, default)` on a properties dict. -/
def props_get (props : PropsDict) (k : String) (dflt : ℚ) : ℚ :=
  match props.find? (fun kv => kv.1 = k) with
  | some kv => kv.2
  | none => dflt

/-- `DeviceService.validate_properties` (the type tag is already a valid
`DeviceType` here, so `validate_device_type` cannot fail): every required
key must be present in `props`, and no property value may be negative.
`true` means the checks pass; the Python code raises
`DeviceValidationError` otherwise. -/
def validate_properties (t : DeviceType) (props : PropsDict) : Bool :=
  ((REQUIRED_PROPERTIES t).filter
      (fun p => !(props.any (fun kv => kv.1 = p)))).isEmpty &&
    props.all (fun kv => 0 ≤ kv.2)

/-- A JSON value stored in a `current_state` dict. -/
inductive SVal
  | num (q : ℚ)
  | mode (m : DeviceMode)
  | bool (b : Bool)
deriving DecidableEq, Repr

/-- A `current_state` JSON dict in insertion order. -/
abbrev StateDict := List (String × SVal)

/-- `DeviceService.get_initial_state`: the canonical initial state per
device type (Battery at 50% capacity idle, EV at 80% idle, Appliance off,
Solar at zero output). -/
def get_initial_state : DeviceType → PropsDict → StateDict
  | DeviceType.solar_panel, _ => [("current_output_watts", SVal.num 0)]
  | DeviceType.battery, props =>
      [("current_charge_wh",
          SVal.num (props_get props "capacity_wh" 0 * (1/2))),
       ("mode", SVal.mode DeviceMode.idle),
       ("current_rate_watts", SVal.num 0)]
  | DeviceType.electric_vehicle, props =>
      [("current_charge_wh",
          SVal.num (props_get props "battery_capacity_wh" 0 * (4/5))),
       ("mode", SVal.mode DeviceMode.idle),
       ("current_rate_watts", SVal.num 0)]
  | DeviceType.appliance, _ =>
      [("is_on", SVal.bool false),
       ("current_power_draw_watts", SVal.num 0)]

/-- A `Device` row as `register_device` creates it. -/
structure RegisteredDevice where
  device_type : DeviceType
  properties : PropsDict
  current_state : StateDict
deriving DecidableEq, Repr

/-- `DeviceService.register_device`: validate, compute the initial state,
create the row atomically; `none` models the raised
`DeviceValidationError` (nothing is created). -/
def register_device (t : DeviceType) (props : PropsDict) :
    Option RegisteredDevice :=
  if validate_properties t props then
    some ⟨t, props, get_initial_state t props⟩
  else none

/-- The per-type `current_state` key schema from the `Device` docstring in
`core/models.py`. -/
def state_schema : DeviceType → List String
  | DeviceType.solar_panel => ["current_output_watts"]
  | DeviceType.battery =>
      ["current_charge_wh", "mode", "current_rate_watts"]
  | DeviceType.electric_vehicle =>
      ["current_charge_wh", "mode", "current_rate_watts"]
  | DeviceType.appliance => ["is_on", "current_power_draw_watts"]

/-- Python dict assignment `d[k] = v`: update in place when the key exists,
append otherwise. -/
def dict_set (d : StateDict) (k : String) (v : SVal) : StateDict :=
  if d.any (fun kv => kv.1 = k) then
    d.map (fun kv => if kv.1 = k then (k, v) else kv)
  else d ++ [(k, v)]

/-- Python `dict.update(patch)` (equivalently `{**state, **patch}`), the way
`update_device_state` and the tick runner merge state patches. -/
def dict_merge (d : StateDict) (patch : StateDict) : StateDict :=
  patch.foldl (fun acc kv => dict_set acc kv.1 kv.2) d

lemma dict_set_keys_of_mem (d : StateDict) (k : String) (v : SVal)
    (h : k ∈ d.map Prod.fst) :
    (dict_set d k v).map Prod.fst = d.map Prod.fst := by
  obtain ⟨kv0, hkv0, hk0⟩ := List.mem_map.mp h
  unfold dict_set
  rw [if_pos (List.any_eq_true.mpr ⟨kv0, hkv0, by simp [hk0]⟩)]
  rw [List.map_map]
  refine List.map_congr_left ?_
  intro kv _
  by_cases hkk : kv.1 = k
  · simp [hkk]
  · simp [hkk]

lemma dict_merge_keys (d : StateDict) (patch : StateDict)
    (h : ∀ k ∈ patch.map Prod.fst, k ∈ d.map Prod.fst) :
    (dict_merge d patch).map Prod.fst = d.map Prod.fst := by
  induction patch generalizing d with
  | nil => rfl
  | cons kv rest ih =>
      have hk : kv.1 ∈ d.map Prod.fst := h kv.1 (by simp)
      have hset := dict_set_keys_of_mem d kv.1 kv.2 hk
      have hstep : dict_merge d (kv :: rest) =
          dict_merge (dict_set d kv.1 kv.2) rest := rfl
      rw [hstep, ih (dict_set d kv.1 kv.2) ?_, hset]
      intro k hkk
      rw [hset]
      exact h k (by simp [hkk])

/-- Claim C9, counterexample: registering a SolarPanel whose properties
carry the extra key `"capacity_wh"` (a Battery field) succeeds, so the key
set of `properties` does not exactly match the solar schema: extra keys,
including fields of another type, are not rejected. -/
theorem registration_extra_key_counterexample :
    (register_device DeviceType.solar_panel
        [("rated_capacity_watts", 100), ("capacity_wh", 5)]).isSome = true ∧
    "capacity_wh" ∈
      (([("rated_capacity_watts", (100:ℚ)), ("capacity_wh", 5)] :
        PropsDict).map Prod.fst) ∧
    "capacity_wh" ∉ REQUIRED_PROPERTIES DeviceType.solar_panel := by
  refine ⟨?_, by simp, by simp [REQUIRED_PROPERTIES]⟩
  simp [register_device, validate_properties, REQUIRED_PROPERTIES]

/-- Claim C9 (amended): for every device created by `RegisterDevice`, each
required key of its type's property schema is present in `properties`
(but extra keys are accepted, not rejected) and every property value is
non-negative; the key list of `current_state` is exactly the type's state
schema; and merging any state patch whose keys lie within the state schema
(all core patches do: ticks and mode changes only write schema keys) keeps
the state key list exactly the schema. -/
theorem registration_schema (t : DeviceType) (props : PropsDict)
    (d : RegisteredDevice) (h : register_device t props = some d) :
    (∀ k ∈ REQUIRED_PROPERTIES t, k ∈ d.properties.map Prod.fst) ∧
    (∀ kv ∈ d.properties, 0 ≤ kv.2) ∧
    d.current_state.map Prod.fst = state_schema t ∧
    (∀ patch : StateDict, (∀ k ∈ patch.map Prod.fst, k ∈ state_schema t) →
      (dict_merge d.current_state patch).map Prod.fst = state_schema t) := by
  unfold register_device at h
  split at h
  case isFalse => exact absurd h (by simp)
  case isTrue hv =>
    obtain rfl : (⟨t, props, get_initial_state t props⟩ : RegisteredDevice) = d :=
      Option.some.inj h
    obtain ⟨hmiss, hvals⟩ : _ ∧ _ := by
      simpa [validate_properties, Bool.and_eq_true] using hv
    have hkeys : (get_initial_state t props).map Prod.fst = state_schema t := by
      cases t <;> rfl
    refine ⟨?_, ?_, hkeys, ?_⟩
    · intro k hk
      obtain ⟨x, hx⟩ := hmiss k hk
      exact List.mem_map.mpr ⟨(k, x), hx, rfl⟩
    · intro kv hkv
      exact hvals kv.1 kv.2 hkv
    · intro patch hpatch
      refine (dict_merge_keys _ patch ?_).trans hkeys
      intro k hk
      rw [hkeys]
      exact hpatch k hk

/-- Witness for `registration_schema`: a Battery registered with exactly the
schema keys; its initial state keys are exactly the storage state schema. -/
theorem registration_schema_witness :
    register_device DeviceType.battery
        [("capacity_wh", 1000), ("max_charge_rate_watts", 2000),
         ("max_discharge_rate_watts", 2000)] =
      some ⟨DeviceType.battery,
        [("capacity_wh", 1000), ("max_charge_rate_watts", 2000),
         ("max_discharge_rate_watts", 2000)],
        get_initial_state DeviceType.battery
          [("capacity_wh", 1000), ("max_charge_rate_watts", 2000),
           ("max_discharge_rate_watts", 2000)]⟩ ∧
    (get_initial_state DeviceType.battery
        [("capacity_wh", 1000), ("max_charge_rate_watts", 2000),
         ("max_discharge_rate_watts", 2000)]).map Prod.fst =
      state_schema DeviceType.battery := by
  have hreg : register_device DeviceType.battery
      [("capacity_wh", 1000), ("max_charge_rate_watts", 2000),
       ("max_discharge_rate_watts", 2000)] =
      some ⟨DeviceType.battery,
        [("capacity_wh", 1000), ("max_charge_rate_watts", 2000),
         ("max_discharge_rate_watts", 2000)],
        get_initial_state DeviceType.battery
          [("capacity_wh", 1000), ("max_charge_rate_watts", 2000),
           ("max_discharge_rate_watts", 2000)]⟩ := by
    simp [register_device, validate_properties, REQUIRED_PROPERTIES]
  exact ⟨hreg, (registration_schema DeviceType.battery _ _ hreg).2.2.1⟩

end Daylight
